import Mathlib

/-!
Verification of the per-user sandbox lifecycle and command-isolation subsystem
of the QB_agent backend (`agent/backend/core/firewall/firewall_bash.py`,
`agent/backend/core/scheduler/background_tasks.py`,
`agent/backend/core/agent/agent_manager.py`,
`agent/backend/core/chat/chat_api.py`), as a shallow embedding in Lean 4.

Machine integers do not occur on the modelled paths (ports stay far below any
word size), so numbers are modelled as `Nat`.  Database state (the `user_set`
table) is modelled as an explicit list of rows threaded through the
operations; the `LOCK TABLE ... IN EXCLUSIVE MODE` critical section is
modelled by the operations being atomic steps on that state.
-/

namespace QBAgent

/-! ### Configuration constants (`core/system/config.py`, default values) -/

/-- Default of `USER_PORT_POOL_START` in `config.py`. -/
def USER_PORT_POOL_START : Nat := 20001

/-- Default of `USER_PORT_POOL_END` in `config.py`. -/
def USER_PORT_POOL_END : Nat := 40000

/-- Default of `USER_PORT_BLOCK_SIZE` in `config.py`. -/
def USER_PORT_BLOCK_SIZE : Nat := 10

/-- Default of `LINUX_USER_PREFIX` in `config.py`. -/
def LINUX_USER_PREFIX : String := "queen"

/-! ### Port allocator (`ensure_user_settings`, firewall_bash.py lines 162-207)

A row of the `user_set` table, restricted to the columns the allocator
reads back (`user_id`, `port_start`, `port_end`).  The remaining columns
(`id`, `storage_quota_bytes`, `settings`, timestamps) never influence the
allocation logic. -/
structure UserSetRow where
  user_id : String
  port_start : Nat
  port_end : Nat
  deriving DecidableEq, Repr

/-- The `user_set` table, in insertion order. -/
abbrev UserSetTable := List UserSetRow

/-- The error raised as `RuntimeError("用户端口池已用尽")` when the pool is full. -/
inductive PoolError where
  | exhausted
  deriving DecidableEq, Repr

/-- The initial `SELECT port_start, port_end FROM user_set WHERE user_id = %s`
followed by `fetchone()`. -/
def lookupUserSet (t : UserSetTable) (uid : String) : Option (Nat × Nat) :=
  match t.find? (fun r => r.user_id == uid) with
  | some r => some (r.port_start, r.port_end)
  | none => none

/-- The SQL aggregate `MAX(port_end)` over the table: `none` on an empty
table (SQL `NULL`, handled by `COALESCE`). -/
def maxPortEnd : UserSetTable → Option Nat
  | [] => none
  | r :: rs =>
    some (match maxPortEnd rs with
          | none => r.port_end
          | some m => max r.port_end m)

/-- Shallow embedding of `ensure_user_settings(user_id)` acting on the
`user_set` table, parameterised by the pool configuration
(`USER_PORT_POOL_START`, `USER_PORT_POOL_END`, `USER_PORT_BLOCK_SIZE`).
Returns the outcome together with the table after the call: on the
exhaustion error the `INSERT` is rolled back (`conn.rollback()`), so the
table comes back unchanged. -/
def ensure_user_settings (ps pe bs : Nat) (t : UserSetTable) (uid : String) :
    Except PoolError (Nat × Nat) × UserSetTable :=
  match lookupUserSet t uid with
  | some res => (.ok res, t)
  | none =>
    let max_end := (maxPortEnd t).getD (ps - 1)
    let port_start := max (max_end + 1) ps
    let port_end := port_start + bs - 1
    if pe < port_end then
      (.error .exhausted, t)
    else
      (.ok (port_start, port_end), t ++ [⟨uid, port_start, port_end⟩])

/-- Tables reachable from the empty table by any sequence of
`ensure_user_settings` calls (for arbitrary user ids).  The exclusive table
lock taken before allocation serialises the calls, which is what makes this
sequential step relation the right model. -/
inductive ReachableTable (ps pe bs : Nat) : UserSetTable → Prop where
  | init : ReachableTable ps pe bs []
  | step (t : UserSetTable) (uid : String) :
      ReachableTable ps pe bs t →
      ReachableTable ps pe bs (ensure_user_settings ps pe bs t uid).2

/-- Well-formedness invariant of the allocation table: rows are strictly
increasing port blocks with pairwise distinct tenants, every block starts at
or above the pool floor, and every block is nonempty. -/
def TableWF (ps : Nat) (t : UserSetTable) : Prop :=
  List.Pairwise (fun a b => a.port_end < b.port_start ∧ a.user_id ≠ b.user_id) t ∧
  ∀ r ∈ t, ps ≤ r.port_start ∧ r.port_start ≤ r.port_end

theorem le_of_maxPortEnd {t : UserSetTable} {m : Nat} (h : maxPortEnd t = some m) :
    ∀ r ∈ t, r.port_end ≤ m := by
  induction t generalizing m with
  | nil => simp
  | cons a rs ih =>
    intro r hr
    simp only [maxPortEnd, Option.some.injEq] at h
    rcases List.mem_cons.1 hr with rfl | hr'
    · cases hmax : maxPortEnd rs with
      | none => simp [hmax] at h; omega
      | some m' => simp [hmax] at h; omega
    · cases hmax : maxPortEnd rs with
      | none =>
        rcases rs with _ | ⟨b, rs'⟩
        · simp at hr'
        · simp [maxPortEnd] at hmax
      | some m' =>
        have := ih hmax r hr'
        simp [hmax] at h
        omega

theorem maxPortEnd_eq_none {t : UserSetTable} (h : maxPortEnd t = none) : t = [] := by
  cases t with
  | nil => rfl
  | cons a rs => simp [maxPortEnd] at h

theorem lookupUserSet_eq_none {t : UserSetTable} {uid : String}
    (h : lookupUserSet t uid = none) : ∀ r ∈ t, r.user_id ≠ uid := by
  intro r hr
  unfold lookupUserSet at h
  cases hfind : t.find? (fun r => r.user_id == uid) with
  | some r' => rw [hfind] at h; simp at h
  | none =>
    have := List.find?_eq_none.1 hfind r hr
    simpa using this

/-- The allocator preserves the table invariant (block size at least one). -/
theorem tableWF_preserved (ps pe bs : Nat) (hbs : 1 ≤ bs) (t : UserSetTable)
    (uid : String) (hwf : TableWF ps t) :
    TableWF ps (ensure_user_settings ps pe bs t uid).2 := by
  unfold ensure_user_settings
  cases hlook : lookupUserSet t uid with
  | some res => simpa using hwf
  | none =>
    simp only
    set max_end := (maxPortEnd t).getD (ps - 1) with hmax_end
    set port_start := max (max_end + 1) ps with hps
    set port_end := port_start + bs - 1 with hpe
    by_cases hex : pe < port_end
    · simpa [hex] using hwf
    · simp only [hex, if_false]
      obtain ⟨hpair, hbound⟩ := hwf
      have hend_lt : ∀ r ∈ t, r.port_end < port_start := by
        intro r hr
        cases hm : maxPortEnd t with
        | none => exact absurd hr (by simp [maxPortEnd_eq_none hm])
        | some m =>
          have := le_of_maxPortEnd hm r hr
          have : r.port_end ≤ max_end := by rw [hmax_end, hm]; simpa using this
          omega
      constructor
      · rw [List.pairwise_append]
        refine ⟨hpair, by simp, ?_⟩
        intro a ha b hb
        simp only [List.mem_singleton] at hb
        subst hb
        exact ⟨hend_lt a ha, lookupUserSet_eq_none hlook a ha⟩
      · intro r hr
        rcases List.mem_append.1 hr with hr' | hr'
        · exact hbound r hr'
        · simp only [List.mem_singleton] at hr'
          subst hr'
          constructor
          · simp [hps]
          · simp only [hpe]; omega

theorem reachable_tableWF (ps pe bs : Nat) (hbs : 1 ≤ bs) (t : UserSetTable)
    (h : ReachableTable ps pe bs t) : TableWF ps t := by
  induction h with
  | init => exact ⟨List.Pairwise.nil, by simp⟩
  | step t' uid _ ih => exact tableWF_preserved ps pe bs hbs t' uid ih

/-- Claim C1.  Port-block allocation is monotonic and collision-free: in every
table reachable by a sequence of `ensure_user_settings` calls, blocks of
distinct tenants never overlap, and a fresh allocation (for a tenant without a
row) inserts a block that starts strictly after every previously allocated
block's end and at or above the pool floor, leaving all earlier rows in
place (no block is ever reassigned). -/
theorem ensure_user_settings_monotonic_no_overlap
    (ps pe bs : Nat) (hbs : 1 ≤ bs) (t : UserSetTable)
    (hreach : ReachableTable ps pe bs t) :
    (∀ r1 ∈ t, ∀ r2 ∈ t, r1.user_id ≠ r2.user_id →
        r1.port_end < r2.port_start ∨ r2.port_end < r1.port_start) ∧
    (∀ uid s e t', lookupUserSet t uid = none →
        ensure_user_settings ps pe bs t uid = (.ok (s, e), t') →
        (∀ r ∈ t, r.port_end < s) ∧ ps ≤ s ∧ e = s + bs - 1 ∧
          t' = t ++ [⟨uid, s, e⟩]) := by
  obtain ⟨hpair, hbound⟩ := reachable_tableWF ps pe bs hbs t hreach
  constructor
  · have hpair' : List.Pairwise
        (fun a b : UserSetRow => a.port_end < b.port_start ∨ b.port_end < a.port_start) t :=
      hpair.imp (fun h => Or.inl h.1)
    intro r1 h1 r2 h2 hne
    have hr12 : r1 ≠ r2 := fun h => hne (by rw [h])
    exact List.Pairwise.forall (fun {x y} h => h.symm) hpair' h1 h2 hr12
  · intro uid s e t' hlook heq
    unfold ensure_user_settings at heq
    rw [hlook] at heq
    simp only at heq
    set max_end := (maxPortEnd t).getD (ps - 1) with hmax_end
    set port_start := max (max_end + 1) ps with hps
    set port_end := port_start + bs - 1 with hpe
    by_cases hex : pe < port_end
    · simp [hex] at heq
    · simp only [hex, if_false, Prod.mk.injEq, Except.ok.injEq, Prod.mk.injEq] at heq
      obtain ⟨⟨hs, he⟩, ht'⟩ := heq
      subst hs; subst he; subst ht'
      refine ⟨?_, ?_, rfl, rfl⟩
      · intro r hr
        cases hm : maxPortEnd t with
        | none => exact absurd hr (by simp [maxPortEnd_eq_none hm])
        | some m =>
          have := le_of_maxPortEnd hm r hr
          have : r.port_end ≤ max_end := by rw [hmax_end, hm]; simpa using this
          omega
      · simp [hps]

/-- Witness for C1: from the empty table, tenant u1 receives (20001, 20010)
and tenant u2 then receives (20011, 20020), and by the theorem their blocks
do not overlap. -/
theorem ensure_user_settings_monotonic_no_overlap_witness :
    (ensure_user_settings 20001 40000 10 [] "u1").1 = .ok (20001, 20010) ∧
    (ensure_user_settings 20001 40000 10
        (ensure_user_settings 20001 40000 10 [] "u1").2 "u2").1 = .ok (20011, 20020) ∧
    (∀ r1 ∈ (ensure_user_settings 20001 40000 10
        (ensure_user_settings 20001 40000 10 [] "u1").2 "u2").2,
      ∀ r2 ∈ (ensure_user_settings 20001 40000 10
        (ensure_user_settings 20001 40000 10 [] "u1").2 "u2").2,
        r1.user_id ≠ r2.user_id →
        r1.port_end < r2.port_start ∨ r2.port_end < r1.port_start) := by
  refine ⟨by rfl, by rfl, ?_⟩
  have hreach : ReachableTable 20001 40000 10
      (ensure_user_settings 20001 40000 10
        (ensure_user_settings 20001 40000 10 [] "u1").2 "u2").2 :=
    ReachableTable.step _ "u2" (ReachableTable.step _ "u1" ReachableTable.init)
  exact (ensure_user_settings_monotonic_no_overlap 20001 40000 10 (by decide) _ hreach).1

/-- Claim C5.  `ensure_user_settings` fails with the pool-exhausted error if
and only if the tenant has no existing row and the newly computed block's end
would exceed the configured pool ceiling; on that failure the transaction is
rolled back and the allocation table is unchanged. -/
theorem ensure_user_settings_pool_exhausted (ps pe bs : Nat) (t : UserSetTable)
    (uid : String) :
    ((ensure_user_settings ps pe bs t uid).1 = .error .exhausted ↔
      lookupUserSet t uid = none ∧
        pe < max ((maxPortEnd t).getD (ps - 1) + 1) ps + bs - 1) ∧
    ((ensure_user_settings ps pe bs t uid).1 = .error .exhausted →
      (ensure_user_settings ps pe bs t uid).2 = t) := by
  unfold ensure_user_settings
  cases hlook : lookupUserSet t uid with
  | some res => simp
  | none =>
    by_cases hex : pe < max ((maxPortEnd t).getD (ps - 1) + 1) ps + bs - 1
    · simp [hex]
    · simp [hex]

/-- Witness for C5: with a ceiling of 20005 the very first allocation (which
would need ports up to 20010) fails, and the table stays empty. -/
theorem ensure_user_settings_pool_exhausted_witness :
    (ensure_user_settings 20001 20005 10 [] "u1").1 = .error .exhausted ∧
    (ensure_user_settings 20001 20005 10 [] "u1").2 = [] := by
  have h := ensure_user_settings_pool_exhausted 20001 20005 10 [] "u1"
  have herr : (ensure_user_settings 20001 20005 10 [] "u1").1 = .error .exhausted :=
    h.1.mpr ⟨by decide, by decide⟩
  exact ⟨herr, h.2 herr⟩

/-- Claim C6.  `ensure_user_settings` is idempotent per tenant: when the
tenant already has an allocated row, the call returns exactly the stored
(port_start, port_end) pair and leaves the table unchanged (no insertion). -/
theorem ensure_user_settings_idempotent (ps pe bs : Nat) (t : UserSetTable)
    (uid : String) (s e : Nat) (h : lookupUserSet t uid = some (s, e)) :
    ensure_user_settings ps pe bs t uid = (.ok (s, e), t) := by
  unfold ensure_user_settings
  rw [h]

/-- Witness for C6: a second call for tenant u1 returns the stored block
(20001, 20010) and does not change the table. -/
theorem ensure_user_settings_idempotent_witness :
    ensure_user_settings 20001 40000 10 [⟨"u1", 20001, 20010⟩] "u1" =
      (.ok (20001, 20010), [⟨"u1", 20001, 20010⟩]) :=
  ensure_user_settings_idempotent 20001 40000 10 [⟨"u1", 20001, 20010⟩] "u1"
    20001 20010 (by decide)


/-! ### Session registry (`AgentManager`, agent_manager.py)

The registry state keeps the keys of `_clients` (the client handles
themselves are opaque and irrelevant to the modelled control flow) together
with the `_client_connected` and `_agent_last_active` dictionaries,
modelled as association lists.  Timestamps are `Nat` (`datetime.now()`
abstracted to a monotone clock value). -/
structure AgentManagerState where
  clients : List String
  client_connected : List (String × Bool)
  agent_last_active : List (String × Nat)
  deriving DecidableEq, Repr

/-- Python `dict.get` on an association list (first binding wins). -/
def alookup {α : Type} : List (String × α) → String → Option α
  | [], _ => none
  | (k', v) :: rest, k => if k' = k then some v else alookup rest k

/-- Python `dict[k] = v` on an association list. -/
def aset {α : Type} : List (String × α) → String → α → List (String × α)
  | [], k, v => [(k, v)]
  | (k', v') :: rest, k, v =>
    if k' = k then (k, v) :: rest else (k', v') :: aset rest k v

/-- Python `del dict[k]` on an association list. -/
def aremove {α : Type} : List (String × α) → String → List (String × α)
  | [], _ => []
  | (k', v) :: rest, k =>
    if k' = k then aremove rest k else (k', v) :: aremove rest k

/-- Removal of a key from the `_clients` key list. -/
def lremove : List String → String → List String
  | [], _ => []
  | x :: rest, k => if x = k then lremove rest k else x :: lremove rest k

/-- State effect of `AgentManager.close_agent_client`: when the id is
registered, the entry is deleted from every dictionary (`del self._clients`
and friends); otherwise the state is untouched.  The teardown sub-steps
(disconnect, close, force-kill) have no effect on the registry state. -/
def close_agent_client_state (st : AgentManagerState) (id : String) :
    AgentManagerState :=
  if id ∈ st.clients then
    { clients := lremove st.clients id,
      client_connected := aremove st.client_connected id,
      agent_last_active := aremove st.agent_last_active id }
  else st

/-! ### Idle reaper (`_idle_agent_cleanup_task`, background_tasks.py lines 20-66)

One tick of the sweep: iterate over a snapshot of `_clients.keys()`; skip
entries without a `last_active` timestamp; close those whose idle time
strictly exceeds the timeout.  `closeFails id = true` models an exception
raised while closing `id`, which the sweep catches and logs before moving
on to the next session. -/
def idle_cleanup_step (now timeout : Nat) (closeFails : String → Bool)
    (s : AgentManagerState) (id : String) : AgentManagerState :=
  match alookup s.agent_last_active id with
  | none => s
  | some t =>
    if timeout < now - t then
      if closeFails id then s else close_agent_client_state s id
    else s

/-- One reaper tick: the `for agent_id in agent_ids` loop over the snapshot. -/
def idle_cleanup_tick (now timeout : Nat) (closeFails : String → Bool)
    (st : AgentManagerState) : AgentManagerState :=
  st.clients.foldl (idle_cleanup_step now timeout closeFails) st

theorem alookup_aremove_ne {α : Type} (l : List (String × α)) (k j : String)
    (h : k ≠ j) : alookup (aremove l j) k = alookup l k := by
  induction l with
  | nil => rfl
  | cons e rest ih =>
    obtain ⟨k', v⟩ := e
    by_cases hkj : k' = j
    · subst hkj
      have hk : k' ≠ k := fun hc => h hc.symm
      simp [aremove, alookup, hk, ih]
    · by_cases hk : k' = k
      · subst hk; simp [aremove, alookup, hkj]
      · simp [aremove, alookup, hkj, hk, ih]

theorem mem_lremove_ne {l : List String} {id j : String} (h : id ≠ j)
    (hm : id ∈ l) : id ∈ lremove l j := by
  induction l with
  | nil => simp at hm
  | cons x rest ih =>
    rcases List.mem_cons.1 hm with rfl | hm'
    · simp [lremove, h]
    · by_cases hx : x = j
      · simpa [lremove, hx] using ih hm'
      · simp [lremove, hx]
        exact Or.inr (ih hm')

theorem not_mem_lremove_self (l : List String) (id : String) :
    id ∉ lremove l id := by
  induction l with
  | nil => simp [lremove]
  | cons x rest ih =>
    by_cases hx : x = id
    · simpa [lremove, hx] using ih
    · simp [lremove, hx]
      exact ⟨fun hc => hx hc.symm, ih⟩

theorem mem_of_mem_lremove {l : List String} {id j : String}
    (h : id ∈ lremove l j) : id ∈ l := by
  induction l with
  | nil => simp [lremove] at h
  | cons x rest ih =>
    by_cases hx : x = j
    · simp only [lremove, hx, if_pos rfl] at h
      exact List.mem_cons_of_mem _ (ih h)
    · simp only [lremove, hx, if_neg hx] at h
      rcases List.mem_cons.1 h with rfl | h'
      · exact List.mem_cons_self _ _
      · exact List.mem_cons_of_mem _ (ih h')

theorem idle_cleanup_step_not_mem (now timeout : Nat) (closeFails : String → Bool)
    (s : AgentManagerState) (id j : String) (h : id ∉ s.clients) :
    id ∉ (idle_cleanup_step now timeout closeFails s j).clients := by
  unfold idle_cleanup_step
  cases alookup s.agent_last_active j with
  | none => exact h
  | some t =>
    by_cases h1 : timeout < now - t
    · by_cases h2 : closeFails j
      · simpa [h1, h2] using h
      · simp only [h1, if_true, h2, Bool.false_eq_true, if_false]
        unfold close_agent_client_state
        by_cases h3 : j ∈ s.clients
        · simp only [h3, if_true]
          exact fun hc => h (mem_of_mem_lremove hc)
        · simpa [h3] using h
    · simpa [h1] using h


theorem idle_cleanup_fold_not_mem (now timeout : Nat) (closeFails : String → Bool)
    (l : List String) (s : AgentManagerState) (id : String) (h : id ∉ s.clients) :
    id ∉ (l.foldl (idle_cleanup_step now timeout closeFails) s).clients := by
  induction l generalizing s with
  | nil => exact h
  | cons j rest ih =>
    exact ih _ (idle_cleanup_step_not_mem now timeout closeFails s id j h)

theorem idle_cleanup_step_preserves (now timeout : Nat) (closeFails : String → Bool)
    (s : AgentManagerState) (id j : String) (t : Nat) (hne : id ≠ j)
    (hmem : id ∈ s.clients) (hla : alookup s.agent_last_active id = some t) :
    id ∈ (idle_cleanup_step now timeout closeFails s j).clients ∧
      alookup (idle_cleanup_step now timeout closeFails s j).agent_last_active id
        = some t := by
  unfold idle_cleanup_step
  cases alookup s.agent_last_active j with
  | none => exact ⟨hmem, hla⟩
  | some tj =>
    by_cases h1 : timeout < now - tj
    · by_cases h2 : closeFails j
      · simp only [h1, if_true, h2, if_true]
        exact ⟨hmem, hla⟩
      · simp only [h1, if_true, h2, Bool.false_eq_true, if_false]
        unfold close_agent_client_state
        by_cases h3 : j ∈ s.clients
        · simp only [h3, if_true]
          exact ⟨mem_lremove_ne hne hmem, by rw [alookup_aremove_ne _ _ _ hne]; exact hla⟩
        · simp only [h3, if_false]
          exact ⟨hmem, hla⟩
    · simp only [h1, if_false]
      exact ⟨hmem, hla⟩

theorem idle_cleanup_fold_fresh (now timeout : Nat) (closeFails : String → Bool)
    (l : List String) (s : AgentManagerState) (id : String) (t : Nat)
    (hmem : id ∈ s.clients) (hla : alookup s.agent_last_active id = some t)
    (hfresh : now - t ≤ timeout) :
    id ∈ (l.foldl (idle_cleanup_step now timeout closeFails) s).clients ∧
      alookup (l.foldl (idle_cleanup_step now timeout closeFails) s).agent_last_active id
        = some t := by
  induction l generalizing s with
  | nil => exact ⟨hmem, hla⟩
  | cons j rest ih =>
    by_cases hne : id = j
    · subst hne
      have hstep : idle_cleanup_step now timeout closeFails s id = s := by
        unfold idle_cleanup_step
        rw [hla]
        simp [Nat.not_lt.2 hfresh]
      simp only [List.foldl_cons, hstep]
      exact ih s hmem hla
    · obtain ⟨hm', hl'⟩ :=
        idle_cleanup_step_preserves now timeout closeFails s id j t hne hmem hla
      simp only [List.foldl_cons]
      exact ih _ hm' hl'

theorem idle_cleanup_fold_stale (now timeout : Nat) (closeFails : String → Bool)
    (l : List String) (s : AgentManagerState) (id : String) (t : Nat)
    (hid : id ∈ l) (hstale : timeout < now - t) (hok : closeFails id = false)
    (hinv : (id ∈ s.clients ∧ alookup s.agent_last_active id = some t) ∨
      id ∉ s.clients) :
    id ∉ (l.foldl (idle_cleanup_step now timeout closeFails) s).clients := by
  induction l generalizing s with
  | nil => exact absurd hid (by simp)
  | cons j rest ih =>
    by_cases hne : id = j
    · subst hne
      simp only [List.foldl_cons]
      rcases hinv with ⟨hmem, hla⟩ | hout
      · have hstep : idle_cleanup_step now timeout closeFails s id =
            close_agent_client_state s id := by
          unfold idle_cleanup_step
          rw [hla]
          simp [hstale, hok]
        rw [hstep]
        apply idle_cleanup_fold_not_mem
        unfold close_agent_client_state
        simp only [hmem, if_true]
        exact not_mem_lremove_self s.clients id
      · exact idle_cleanup_fold_not_mem now timeout closeFails rest _ id
          (idle_cleanup_step_not_mem now timeout closeFails s id id hout)
    · have hid' : id ∈ rest := by
        rcases List.mem_cons.1 hid with h | h
        · exact absurd h hne
        · exact h
      simp only [List.foldl_cons]
      apply ih _ hid'
      rcases hinv with ⟨hmem, hla⟩ | hout
      · exact Or.inl (idle_cleanup_step_preserves now timeout closeFails s id j t hne hmem hla)
      · exact Or.inr (idle_cleanup_step_not_mem now timeout closeFails s id j hout)

/-- Claim C7.  On each reaper tick, every registered session with a recorded
last-active time whose idle duration exceeds the timeout is closed (provided
its own teardown does not raise, and regardless of failures while closing
other sessions — the sweep continues past them), and no session whose idle
duration is within the timeout is ever closed by the tick. -/
theorem idle_cleanup_tick_spec (now timeout : Nat) (closeFails : String → Bool)
    (st : AgentManagerState) :
    (∀ id t, id ∈ st.clients → alookup st.agent_last_active id = some t →
      now - t ≤ timeout →
      id ∈ (idle_cleanup_tick now timeout closeFails st).clients) ∧
    (∀ id t, id ∈ st.clients → alookup st.agent_last_active id = some t →
      timeout < now - t → closeFails id = false →
      id ∉ (idle_cleanup_tick now timeout closeFails st).clients) := by
  constructor
  · intro id t hmem hla hfresh
    exact (idle_cleanup_fold_fresh now timeout closeFails st.clients st id t
      hmem hla hfresh).1
  · intro id t hmem hla hstale hok
    exact idle_cleanup_fold_stale now timeout closeFails st.clients st id t
      hmem hstale hok (Or.inl ⟨hmem, hla⟩)

/-- Witness for C7: with timeout 1200 at time 2000, the stale session a
(last active at 0, idle 2000) is closed even though closing the equally
stale session b fails, while the fresh session c (last active at 1500) is
kept. -/
theorem idle_cleanup_tick_spec_witness :
    "a" ∉ (idle_cleanup_tick 2000 1200 (fun id => id = "b")
      { clients := ["b", "a", "c"],
        client_connected := [("b", true), ("a", true), ("c", true)],
        agent_last_active := [("b", 0), ("a", 0), ("c", 1500)] }).clients ∧
    "c" ∈ (idle_cleanup_tick 2000 1200 (fun id => id = "b")
      { clients := ["b", "a", "c"],
        client_connected := [("b", true), ("a", true), ("c", true)],
        agent_last_active := [("b", 0), ("a", 0), ("c", 1500)] }).clients := by
  constructor
  · exact (idle_cleanup_tick_spec 2000 1200 (fun id => id = "b") _).2 "a" 0
      (by decide) (by decide) (by decide) (by decide)
  · exact (idle_cleanup_tick_spec 2000 1200 (fun id => id = "b") _).1 "c" 1500
      (by decide) (by decide) (by decide)

/-! ### Connection management (`AgentManager.ensure_client_connected`,
agent_manager.py lines 204-228)

`connectOk` models the outcome of `await client.connect()` (`false` means
the call raised); `now` is the `datetime.now()` value used for the
last-active bump. -/
def ensure_client_connected (st : AgentManagerState) (id : String)
    (connectOk : Bool) (now : Nat) : Bool × AgentManagerState :=
  if id ∈ st.clients then
    if (alookup st.client_connected id).getD false then
      (true, { st with agent_last_active := aset st.agent_last_active id now })
    else
      if connectOk then
        (true, { st with
          client_connected := aset st.client_connected id true,
          agent_last_active := aset st.agent_last_active id now })
      else
        (false, st)
  else
    (false, st)

/-- Counterexample to claim C9 as stated: for a registered handle that is
not yet connected, a failing connect attempt returns false and does NOT bump
the handle's last-active timestamp (it stays 5 although the call happened at
time 99), so the timestamp is not always bumped when the handle exists. -/
theorem ensure_client_connected_no_bump_on_failure :
    "a" ∈ (AgentManagerState.mk ["a"] [("a", false)] [("a", 5)]).clients ∧
    (ensure_client_connected
        (AgentManagerState.mk ["a"] [("a", false)] [("a", 5)]) "a" false 99).1 = false ∧
    alookup (ensure_client_connected
        (AgentManagerState.mk ["a"] [("a", false)] [("a", 5)]) "a" false 99).2.agent_last_active
        "a" = some 5 := by
  decide

/-- Claim C9, amended.  `ensure_client_connected` returns false without
raising when the handle is no longer registered (state untouched); when the
handle exists and is already connected it bumps last-active and returns
true; when it exists but is not connected, a successful connect marks it
connected, bumps last-active and returns true, while a failed connect
returns false leaving the state (including last-active) unchanged. -/
theorem ensure_client_connected_spec (st : AgentManagerState) (id : String)
    (connectOk : Bool) (now : Nat) :
    (id ∉ st.clients →
      ensure_client_connected st id connectOk now = (false, st)) ∧
    (id ∈ st.clients → (alookup st.client_connected id).getD false = true →
      ensure_client_connected st id connectOk now =
        (true, { st with agent_last_active := aset st.agent_last_active id now })) ∧
    (id ∈ st.clients → (alookup st.client_connected id).getD false = false →
      connectOk = true →
      ensure_client_connected st id connectOk now =
        (true, { st with
          client_connected := aset st.client_connected id true,
          agent_last_active := aset st.agent_last_active id now })) ∧
    (id ∈ st.clients → (alookup st.client_connected id).getD false = false →
      connectOk = false →
      ensure_client_connected st id connectOk now = (false, st)) := by
  refine ⟨?_, ?_, ?_, ?_⟩
  · intro h
    simp [ensure_client_connected, h]
  · intro h hc
    simp [ensure_client_connected, h, hc]
  · intro h hc hok
    subst hok
    simp [ensure_client_connected, h, hc]
  · intro h hc hok
    subst hok
    simp [ensure_client_connected, h, hc]

/-- Witness for the amended C9: all four branches at concrete states. -/
theorem ensure_client_connected_spec_witness :
    ensure_client_connected (AgentManagerState.mk ["a"] [("a", false)] [("a", 5)])
        "b" true 99 = (false, AgentManagerState.mk ["a"] [("a", false)] [("a", 5)]) ∧
    ensure_client_connected (AgentManagerState.mk ["a"] [("a", true)] [("a", 5)])
        "a" true 99 =
      (true, AgentManagerState.mk ["a"] [("a", true)] [("a", 99)]) ∧
    ensure_client_connected (AgentManagerState.mk ["a"] [("a", false)] [("a", 5)])
        "a" true 99 =
      (true, AgentManagerState.mk ["a"] [("a", true)] [("a", 99)]) := by
  refine ⟨?_, ?_, ?_⟩
  · exact (ensure_client_connected_spec
      (AgentManagerState.mk ["a"] [("a", false)] [("a", 5)]) "b" true 99).1 (by decide)
  · exact (ensure_client_connected_spec
      (AgentManagerState.mk ["a"] [("a", true)] [("a", 5)]) "a" true 99).2.1
      (by decide) (by decide)
  · exact (ensure_client_connected_spec
      (AgentManagerState.mk ["a"] [("a", false)] [("a", 5)]) "a" true 99).2.2.1
      (by decide) (by decide) rfl

/-! ### Python string helpers

Helpers shared by the firewall and chat embeddings, each modelling one
Python string primitive at the character-list level (so that everything
reduces in the kernel). -/

/-- Containment of `sub` as a contiguous run in a character list, checked at
every start position. -/
def containsSub (sub : List Char) : List Char → Bool
  | [] => sub.isPrefixOf []
  | c :: rest => sub.isPrefixOf (c :: rest) || containsSub sub rest

/-- Python `sub in s` (substring containment). -/
def pyIn (sub s : String) : Bool := containsSub sub.data s.data

/-- Python `s.lower()` (ASCII; the modelled inputs are ASCII). -/
def pyLower (s : String) : String := String.mk (s.data.map Char.toLower)

/-- Python truthiness of an optional string (`None` and `""` are falsy). -/
def truthy : Option String → Bool
  | none => false
  | some s => s ≠ ""

/-- Python `a or b` on optional strings. -/
def pyOr (a b : Option String) : Option String := if truthy a then a else b

/-! ### Fatal-transport retry (`_process_ai_response`, chat_api.py lines 582-767) -/

/-- Outcome of one full attempt of the try-body of `_process_ai_response`
(client lookup, `client.query`, response streaming): either it completes, or
it raises an exception with the given message. -/
inductive ExchangeOutcome where
  | ok
  | err (msg : String)
  deriving DecidableEq, Repr

/-- The fatal-transport detection in the `except` handler: the lowered error
message is matched against the known terminal-process substrings. -/
def is_fatal_transport_error (err_msg : String) : Bool :=
  pyIn "terminated process" (pyLower err_msg) ||
  pyIn "message reader" (pyLower err_msg) ||
  pyIn "exit code" (pyLower err_msg) ||
  pyIn "cannot write to terminated process" (pyLower err_msg)

/-- Observable effects of one `_process_ai_response` call tree. -/
structure RetryTrace where
  /-- number of exchange attempts performed (outer call plus retries) -/
  exchanges : Nat
  /-- number of `close_agent_client` calls made by the recovery path -/
  closedSession : Nat
  /-- whether `update_session_claude_id(session_id, None)` was executed -/
  clearedResumeToken : Bool
  /-- number of `_ensure_agent_client(agent_id, user_id, None)` fresh recreations -/
  recreatedFresh : Nat
  /-- whether the structured user-visible error message was saved -/
  userErrorSaved : Bool
  deriving DecidableEq, Repr

/-- The `_retry=True` invocation of `_process_ai_response`: its `except`
handler skips the recovery branch because `not _retry` is false, so any
failure goes straight to saving the user-visible error message. -/
def process_ai_response_retry (outcome : ExchangeOutcome) : RetryTrace :=
  match outcome with
  | .ok => ⟨1, 0, false, 0, false⟩
  | .err _ => ⟨1, 0, false, 0, true⟩

/-- The outer (`_retry=False`) invocation of `_process_ai_response`:
on an exception matching the fatal-transport patterns it closes the session,
clears the persisted resume token, recreates the client fresh (resume token
`None`) and re-runs itself once with `_retry=True`; any non-matching
exception just saves the user-visible error message. -/
def process_ai_response (outcome1 outcome2 : ExchangeOutcome) : RetryTrace :=
  match outcome1 with
  | .ok => ⟨1, 0, false, 0, false⟩
  | .err m =>
    if is_fatal_transport_error m then
      let rt := process_ai_response_retry outcome2
      { exchanges := 1 + rt.exchanges,
        closedSession := 1 + rt.closedSession,
        clearedResumeToken := true,
        recreatedFresh := 1 + rt.recreatedFresh,
        userErrorSaved := rt.userErrorSaved }
    else ⟨1, 0, false, 0, true⟩

/-- Claim C8.  On an exchange failure matching the fatal transport patterns
the system closes the session, clears the persisted resume token, recreates
the client fresh, and retries the original message exactly once (two
exchanges in total, never more — even when the second failure also matches
the patterns); a second failure saves the structured user-visible error
message, while a successful retry saves no error. -/
theorem process_ai_response_fatal_retry_once (m : String)
    (outcome2 : ExchangeOutcome) (hfatal : is_fatal_transport_error m = true) :
    (process_ai_response (.err m) outcome2).closedSession = 1 ∧
    (process_ai_response (.err m) outcome2).clearedResumeToken = true ∧
    (process_ai_response (.err m) outcome2).recreatedFresh = 1 ∧
    (process_ai_response (.err m) outcome2).exchanges = 2 ∧
    (∀ m2, outcome2 = .err m2 →
      (process_ai_response (.err m) outcome2).userErrorSaved = true) ∧
    (outcome2 = .ok →
      (process_ai_response (.err m) outcome2).userErrorSaved = false) := by
  cases outcome2 with
  | ok => simp [process_ai_response, process_ai_response_retry, hfatal]
  | err m2 => simp [process_ai_response, process_ai_response_retry, hfatal]

/-- Witness for C8: a concrete fatal first failure followed by a second
failure yields exactly one recovery cycle, two exchanges and a saved user
error. -/
theorem process_ai_response_fatal_retry_once_witness :
    (process_ai_response (.err "Cannot write to terminated process")
        (.err "process exited with exit code 1")).exchanges = 2 ∧
    (process_ai_response (.err "Cannot write to terminated process")
        (.err "process exited with exit code 1")).closedSession = 1 ∧
    (process_ai_response (.err "Cannot write to terminated process")
        (.err "process exited with exit code 1")).userErrorSaved = true := by
  have h := process_ai_response_fatal_retry_once "Cannot write to terminated process"
    (.err "process exited with exit code 1") (by decide)
  exact ⟨h.2.2.2.1, h.1, h.2.2.2.2.1 "process exited with exit code 1" rfl⟩

/-! ### Shell characters and `shlex.quote` (firewall_bash.py uses `shlex.quote`
inside `_wrap_bash_command`)

The quote characters are spelled via their code points to keep the
definitions readable next to the state machine below. -/

/-- The POSIX single-quote character. -/
def singleQuoteChar : Char := Char.ofNat 39

/-- The double-quote character. -/
def doubleQuoteChar : Char := Char.ofNat 34

/-- The backslash character. -/
def backslashChar : Char := Char.ofNat 92

/-- Characters `shlex.quote` leaves unquoted, per its `_find_unsafe` regex
with `re.ASCII`: ASCII alphanumerics, underscore, and the punctuation
at-sign, percent, plus, equals, colon, comma, dot, slash, dash. -/
def shlexSafeChar (c : Char) : Bool :=
  c.isAlphanum || ['_', '@', '%', '+', '=', ':', ',', '.', '/', '-'].contains c

/-- The `s.replace("'", ...)` step of `shlex.quote`: each single quote is
replaced by quote, double quote, quote, double quote, quote. -/
def shlexEscapeQuoteChars : List Char → List Char
  | [] => []
  | c :: rest =>
    if c = singleQuoteChar then
      singleQuoteChar :: doubleQuoteChar :: singleQuoteChar :: doubleQuoteChar ::
        singleQuoteChar :: shlexEscapeQuoteChars rest
    else c :: shlexEscapeQuoteChars rest

/-- Python `shlex.quote`: empty strings become a pair of single quotes,
strings of safe characters pass through, anything else is wrapped in single
quotes with embedded quotes escaped. -/
def shlexQuote (s : String) : String :=
  if s = "" then String.mk [singleQuoteChar, singleQuoteChar]
  else if s.data.all shlexSafeChar then s
  else String.mk (singleQuoteChar :: (shlexEscapeQuoteChars s.data ++ [singleQuoteChar]))

/-! ### Decimal rendering of the millisecond timestamp

`_wrap_bash_command` interpolates `int(time.time() * 1000)` into an
f-string, i.e. renders the timestamp in decimal.  The fuel argument (always
sufficient at `n + 1`) keeps the recursion structural so that everything
reduces in the kernel. -/
def natDecAux : Nat → Nat → List Char
  | 0, _ => []
  | fuel + 1, n =>
    if n < 10 then [Nat.digitChar n]
    else natDecAux fuel (n / 10) ++ [Nat.digitChar (n % 10)]

/-- Decimal digit characters of `n`, most significant first. -/
def natDecChars (n : Nat) : List Char := natDecAux (n + 1) n

/-- Decimal rendering of `n` as a string. -/
def natDecimal (n : Nat) : String := String.mk (natDecChars n)

/-! ### Command isolation wrapper (`_wrap_bash_command`, firewall_bash.py
lines 52-62)

`nowMs` stands for `int(time.time() * 1000)` and `rand6` for
`uuid.uuid4().hex[:6]`; both are inputs of the otherwise pure string
transform. -/
def wrap_bash_command (command linux_user work_dir : String) (nowMs : Nat)
    (rand6 : String) : String :=
  "sudo chown -R " ++ shlexQuote linux_user ++ ":" ++ shlexQuote linux_user ++ " " ++
    shlexQuote work_dir ++ " && " ++
  "sudo systemd-run --scope --slice=user-" ++ shlexQuote linux_user ++ ".slice " ++
  "--unit=" ++ shlexQuote ("job-" ++ linux_user ++ "-" ++ (natDecimal nowMs ++ "-" ++ rand6)) ++ " " ++
  "--working-directory=" ++ shlexQuote work_dir ++ " " ++
  "--uid=" ++ shlexQuote linux_user ++ " --gid=" ++ shlexQuote linux_user ++ " --quiet " ++
  "bash -lc " ++ shlexQuote command

/-! ### Identity derivation (`_extract_user_id`, `_to_linux_user`,
`_resolve_user_workspace`, firewall_bash.py lines 32-49) -/

/-- A character allowed inside the `userid_([^/\\]+)` capture group. -/
def userIdGroupChar (c : Char) : Bool := c ≠ '/' && c ≠ backslashChar

/-- Leftmost match of `re.search(r"userid_([^/\\]+)", work_dir)`: at each
position, if the literal `userid_` occurs there and is followed by at least
one group character, the greedy group is returned; otherwise the search
moves one character right. -/
def extractUserIdChars : List Char → Option (List Char)
  | [] => none
  | c :: rest =>
    if "userid_".data.isPrefixOf (c :: rest) then
      let grp := ((c :: rest).drop 7).takeWhile userIdGroupChar
      if grp.isEmpty then extractUserIdChars rest else some grp
    else extractUserIdChars rest

/-- `_extract_user_id(work_dir)`. -/
def extract_user_id (work_dir : String) : Option String :=
  (extractUserIdChars work_dir.data).map String.mk

/-- `_to_linux_user(user_id)`: lowercase, keep alphanumerics, truncate to 16
characters, prefix with `LINUX_USER_PREFIX` (ASCII reading of Python
`str.lower`/`str.isalnum`, which is exact for the UUID-style ids used). -/
def to_linux_user (user_id : String) : String :=
  LINUX_USER_PREFIX ++ String.mk (((pyLower user_id).data.filter Char.isAlphanum).take 16)

/-- `_resolve_user_workspace(work_dir, user_id)`: `baseDir` stands for
`config.get_work_base_dir()` (no trailing slash, as in the defaults), and
`Path(base) / name` renders as `base ++ "/" ++ name` on POSIX. -/
def resolve_user_workspace (baseDir work_dir : String) (user_id : Option String) : String :=
  match user_id with
  | none => work_dir
  | some uid => baseDir ++ "/userid_" ++ uid

/-! ### Path normalisation (`_is_path_allowed`, firewall_bash.py lines 459-468)

`os.path.abspath(p)` is `posixpath.normpath(join(cwd, p))`; the result is
represented here by its list of path components (the string is `"/"` plus
the components joined with `"/"`, and normpath output for an absolute path
never contains empty, `.` or `..` components).  `os.path.commonpath([a, b])
== b` holds exactly when the component list of `b` is a prefix of that of
`a`, which is how the final check is stated. -/

/-- Split a character list at every slash (`str.split("/")`). -/
def splitSlashAux : List Char → List Char → List (List Char)
  | [], cur => [cur.reverse]
  | c :: rest, cur =>
    if c = '/' then cur.reverse :: splitSlashAux rest []
    else splitSlashAux rest (c :: cur)

/-- Components of a POSIX path string, including empty components. -/
def splitSlash (s : String) : List String := (splitSlashAux s.data []).map String.mk

/-- One step of `posixpath.normpath` on an absolute path: empty and `.`
components vanish, `..` pops (and is dropped at the root), anything else is
appended. -/
def normStep (acc : List String) (comp : String) : List String :=
  if comp = "" ∨ comp = "." then acc
  else if comp = ".." then acc.dropLast
  else acc ++ [comp]

/-- `posixpath.normpath` on an absolute path, at the component level. -/
def normComps (cs : List String) : List String := cs.foldl normStep []

/-- Python `posixpath.isabs`. -/
def pyIsAbs (s : String) : Bool :=
  match s.data with
  | [] => false
  | c :: _ => c = '/'

/-- Component list of `os.path.abspath(p)` evaluated with current working
directory `cwd` (assumed absolute, as `os.getcwd()` always is). -/
def py_abs_path (cwd p : String) : List String :=
  if pyIsAbs p then normComps (splitSlash p)
  else normComps (splitSlash cwd ++ splitSlash p)

/-- `_is_path_allowed(path, allowed_dir)`: empty paths are allowed, and
otherwise `commonpath([abspath(path), abspath(allowed_dir)]) ==
abspath(allowed_dir)`, i.e. the allowed directory's components are a prefix
of the requested path's components.  (Both arguments are absolute after
`abspath`, so the `ValueError` branch of `commonpath` is unreachable.) -/
def is_path_allowed (cwd path allowed_dir : String) : Bool :=
  if path = "" then true
  else (py_abs_path cwd allowed_dir).isPrefixOf (py_abs_path cwd path)

/-! ### Tool permission handler (`build_tool_permission_handler`,
firewall_bash.py lines 471-519)

The tool input dict is restricted to the keys the handler reads or writes
(`tool_name`, `file_path`, `path`, `pattern`, `command`); all other keys are
copied through untouched by the Python code and carry no information for
the control flow. -/
structure ToolInputData where
  tool_name : Option String
  file_path : Option String
  path : Option String
  pattern : Option String
  command : Option String
  deriving DecidableEq, Repr

/-- Result of the permission handler: `allow` with the (possibly rewritten)
input (`_allow_permission_result(updated_input)`), or the structured denial
dict with its user-facing `systemMessage`. -/
inductive PermResult where
  | allow (updatedInput : ToolInputData)
  | deny (systemMessage : String)
  deriving DecidableEq, Repr

/-- The handler closed over `work_dir` that `build_tool_permission_handler`
returns, applied to one tool call.  `enabled` is `is_firewall_enabled()`
(the disabled branch returns the passthrough handler), `osIsNt` is
`os.name == "nt"`, `cwd` the process working directory used by
`os.path.abspath`, `baseDir` the configured work base directory, and
`nowMs`/`rand6` the wrapper's timestamp and random suffix. -/
def build_tool_permission_handler (enabled osIsNt : Bool) (cwd baseDir work_dir : String)
    (nowMs : Nat) (rand6 : String) (toolName : String) (input : ToolInputData) :
    PermResult :=
  if enabled = false then .allow input
  else
    let userId := extract_user_id work_dir
    let linuxUser := userId.map to_linux_user
    let userWorkspace := resolve_user_workspace baseDir work_dir userId
    let resolvedTool := if toolName = "" then input.tool_name else some toolName
    let filePath := pyOr input.file_path (pyOr input.path input.pattern)
    if truthy linuxUser ∧
        (resolvedTool = some "Read" ∨ resolvedTool = some "Grep" ∨ resolvedTool = some "Glob") ∧
        truthy filePath ∧
        is_path_allowed cwd (filePath.getD "") userWorkspace = false then
      .deny ("安全限制：只能访问工作目录 " ++ userWorkspace ++ " 内的文件。")
    else if osIsNt = false ∧ resolvedTool = some "Bash" ∧ truthy linuxUser ∧
        truthy input.command then
      .allow { input with command := some (wrap_bash_command (input.command.getD "")
        (linuxUser.getD "") work_dir nowMs rand6) }
    else .allow input

/-! ### `shlex.split` and the already-wrapped marker check
(`_is_allowed_wrapped_command`, firewall_bash.py lines 379-416)

POSIX-mode `shlex.split` as a five-state machine: outside any quote,
inside single quotes (no escapes), inside double quotes (backslash escapes
only backslash and double quote), and the two corresponding
just-saw-a-backslash states.  An unterminated quote or trailing backslash
raises `ValueError` in Python, modelled as `none` (the caller turns it into
an empty token list). -/
inductive ShlexState where
  | normal
  | inSingle
  | inDouble
  | escNormal
  | escDouble
  deriving DecidableEq, Repr

/-- The `shlex` whitespace characters: space, tab, newline, carriage return. -/
def shlexWhitespace (c : Char) : Bool :=
  c = ' ' || c = Char.ofNat 9 || c = Char.ofNat 10 || c = Char.ofNat 13

/-- The `shlex.split` state machine.  `cur = some tk` means a token with
content `tk` is in progress (quotes produce a token even when empty). -/
def shlexSplitAux : List Char → ShlexState → Option (List Char) → List String →
    Option (List String)
  | [], .normal, cur, acc =>
    some (acc ++ (match cur with | some tk => [String.mk tk] | none => []))
  | [], _, _, _ => none
  | c :: rest, .normal, cur, acc =>
    if shlexWhitespace c then
      match cur with
      | some tk => shlexSplitAux rest .normal none (acc ++ [String.mk tk])
      | none => shlexSplitAux rest .normal none acc
    else if c = singleQuoteChar then shlexSplitAux rest .inSingle (some (cur.getD [])) acc
    else if c = doubleQuoteChar then shlexSplitAux rest .inDouble (some (cur.getD [])) acc
    else if c = backslashChar then shlexSplitAux rest .escNormal (some (cur.getD [])) acc
    else shlexSplitAux rest .normal (some (cur.getD [] ++ [c])) acc
  | c :: rest, .inSingle, cur, acc =>
    if c = singleQuoteChar then shlexSplitAux rest .normal cur acc
    else shlexSplitAux rest .inSingle (some (cur.getD [] ++ [c])) acc
  | c :: rest, .inDouble, cur, acc =>
    if c = doubleQuoteChar then shlexSplitAux rest .normal cur acc
    else if c = backslashChar then shlexSplitAux rest .escDouble cur acc
    else shlexSplitAux rest .inDouble (some (cur.getD [] ++ [c])) acc
  | c :: rest, .escNormal, cur, acc =>
    shlexSplitAux rest .normal (some (cur.getD [] ++ [c])) acc
  | c :: rest, .escDouble, cur, acc =>
    if c = backslashChar ∨ c = doubleQuoteChar then
      shlexSplitAux rest .inDouble (some (cur.getD [] ++ [c])) acc
    else shlexSplitAux rest .inDouble (some (cur.getD [] ++ [backslashChar, c])) acc

/-- Python `shlex.split(command)`; `none` models the `ValueError` the caller
catches. -/
def shlexSplit (s : String) : Option (List String) :=
  shlexSplitAux s.data .normal none []

/-- The inner `_has_required_workdir` check: with a nonempty working
directory the command must contain both `bash -lc` and the literal snippet
`cd <quoted work_dir>`. -/
def has_required_workdir (work_dir command : String) : Bool :=
  if work_dir = "" then true
  else pyIn "bash -lc" command && pyIn ("cd " ++ shlexQuote work_dir) command

/-- The inner `has_systemd_run(tokens, start_idx)` check: `sudo systemd-run`
at the given index with `--scope` and the identity's slice flag somewhere in
the remaining tokens. -/
def has_systemd_run (linux_user : String) (tokens : List String) (start_idx : Nat) : Bool :=
  if tokens.length ≤ start_idx + 1 then false
  else
    (tokens.getD start_idx "" == "sudo") &&
    (tokens.getD (start_idx + 1) "" == "systemd-run") &&
    ((tokens.drop (start_idx + 2)).contains "--scope") &&
    ((tokens.drop (start_idx + 2)).contains ("--slice=user-" ++ linux_user ++ ".slice"))

/-- `_is_allowed_wrapped_command(command, linux_user, work_dir)`: tokenise,
drop a leading `time`, accept a direct `sudo systemd-run` prefix or a legacy
`sudo chown ... && sudo systemd-run ...` shape, and in either case require
the working-directory snippet.  (All matching positions of the legacy scan
return the same value, so the first-match loop is an existence check.) -/
def is_allowed_wrapped_command (command linux_user work_dir : String) : Bool :=
  let parts0 := (shlexSplit command).getD []
  let parts := if parts0.headD "" == "time" then parts0.tail else parts0
  if has_systemd_run linux_user parts 0 then
    has_required_workdir work_dir command
  else if (List.range (parts.length - 1)).any
      (fun idx => has_systemd_run linux_user parts idx) then
    has_required_workdir work_dir command
  else false

theorem to_linux_user_ne_empty (uid : String) : to_linux_user uid ≠ "" := by
  intro hc
  have h := congrArg String.length hc
  rw [to_linux_user, String.length_append] at h
  have h5 : LINUX_USER_PREFIX.length = 5 := by decide
  have h0 : ("" : String).length = 0 := rfl
  rw [h5, h0] at h
  omega

/-- Claim C10.  With the firewall enabled but a working directory containing
no `userid_` segment (so no isolation identity can be derived), the returned
permission handler allows every tool call with its input unchanged: no
workspace path restriction and no Bash wrapping. -/
theorem handler_without_identity_allows_unmodified
    (osIsNt : Bool) (cwd baseDir work_dir : String) (nowMs : Nat) (rand6 : String)
    (toolName : String) (input : ToolInputData)
    (h : extract_user_id work_dir = none) :
    build_tool_permission_handler true osIsNt cwd baseDir work_dir nowMs rand6
      toolName input = .allow input := by
  unfold build_tool_permission_handler
  simp [h, truthy]

/-- Witness for C10: a workspace path without a `userid_` segment lets a Bash
command and an out-of-tree Read through unmodified. -/
theorem handler_without_identity_allows_unmodified_witness :
    build_tool_permission_handler true false "/srv" "/home/queen" "/home/queen/shared"
        1000 "abc123" "Bash"
        ⟨none, none, none, none, some "rm -rf /etc"⟩ =
      .allow ⟨none, none, none, none, some "rm -rf /etc"⟩ ∧
    build_tool_permission_handler true false "/srv" "/home/queen" "/home/queen/shared"
        1000 "abc123" "Read"
        ⟨none, some "/etc/passwd", none, none, none⟩ =
      .allow ⟨none, some "/etc/passwd", none, none, none⟩ := by
  constructor
  · exact handler_without_identity_allows_unmodified false "/srv" "/home/queen"
      "/home/queen/shared" 1000 "abc123" "Bash"
      ⟨none, none, none, none, some "rm -rf /etc"⟩ (by decide)
  · exact handler_without_identity_allows_unmodified false "/srv" "/home/queen"
      "/home/queen/shared" 1000 "abc123" "Read"
      ⟨none, some "/etc/passwd", none, none, none⟩ (by decide)

/-- Claim C2.  For a tenant workspace (a working directory with a `userid_`
segment), the permission handler denies a Read, Grep or Glob call whose
requested path normalises (via `os.path.abspath` against the process working
directory) to a location outside the tenant workspace root, returning the
structured denial with its user-facing explanation naming the workspace; a
request whose normalised path lies under that root is allowed. -/
theorem read_tool_path_restriction
    (osIsNt : Bool) (cwd baseDir work_dir uid : String) (nowMs : Nat) (rand6 : String)
    (tool : String) (input : ToolInputData) (p : String)
    (hu : extract_user_id work_dir = some uid)
    (htool : tool = "Read" ∨ tool = "Grep" ∨ tool = "Glob")
    (hfp : input.file_path = some p) (hp : p ≠ "") :
    (¬ (py_abs_path cwd (resolve_user_workspace baseDir work_dir (some uid)) <+:
          py_abs_path cwd p) →
      build_tool_permission_handler true osIsNt cwd baseDir work_dir nowMs rand6
          tool input =
        .deny ("安全限制：只能访问工作目录 " ++
          resolve_user_workspace baseDir work_dir (some uid) ++ " 内的文件。")) ∧
    ((py_abs_path cwd (resolve_user_workspace baseDir work_dir (some uid)) <+:
          py_abs_path cwd p) →
      build_tool_permission_handler true osIsNt cwd baseDir work_dir nowMs rand6
          tool input = .allow input) := by
  have htne : tool ≠ "" := by
    rcases htool with h | h | h <;> simp [h]
  have hbash : tool ≠ "Bash" := by
    rcases htool with h | h | h <;> simp [h]
  constructor
  · intro hout
    have hallow : is_path_allowed cwd p (resolve_user_workspace baseDir work_dir (some uid))
        = false := by
      unfold is_path_allowed
      rw [if_neg hp, ← Bool.not_eq_true, List.isPrefixOf_iff_prefix]
      exact hout
    unfold build_tool_permission_handler
    rw [hu]
    simp only [Option.map_some]
    rw [if_neg (by simp)]
    rw [if_pos]
    constructor
    · simp [truthy, to_linux_user_ne_empty uid]
    refine ⟨by rcases htool with h | h | h <;> simp [h, htne], ?_, ?_⟩
    · simp [hfp, pyOr, truthy, hp]
    · simpa [hfp, pyOr, truthy, hp] using hallow
  · intro hin
    have hallow : is_path_allowed cwd p (resolve_user_workspace baseDir work_dir (some uid))
        = true := by
      unfold is_path_allowed
      rw [if_neg hp, List.isPrefixOf_iff_prefix]
      exact hin
    unfold build_tool_permission_handler
    rw [hu]
    simp only [Option.map_some]
    rw [if_neg (by simp)]
    rw [if_neg]
    · rw [if_neg]
      intro hc
      exact hbash (by
        rcases hc with ⟨_, hres, _⟩
        by_cases ht0 : tool = ""
        · exact absurd ht0 htne
        · simpa [ht0] using hres)
    · intro hc
      obtain ⟨_, _, _, hfalse⟩ := hc
      rw [show pyOr input.file_path (pyOr input.path input.pattern) = some p by
        simp [hfp, pyOr, truthy, hp]] at hfalse
      simp only [Option.getD_some] at hfalse
      rw [hallow] at hfalse
      exact absurd hfalse (by decide)

/-- Counterexample to claim C3 as stated: the Bash permission path performs
no already-wrapped detection — fed a command that is exactly
`wrap("echo hi", queenu1, /home/queen/userid_u1)`, the handler wraps it a
second time (its output command is the double wrap, which differs from the
input). -/
theorem bash_already_wrapped_is_rewrapped :
    build_tool_permission_handler true false "/" "/base" "/home/queen/userid_u1"
        2000 "def456" "Bash"
        ⟨none, none, none, none,
          some (wrap_bash_command "echo hi" "queenu1" "/home/queen/userid_u1"
            1000 "abc123")⟩ =
      .allow ⟨none, none, none, none,
        some (wrap_bash_command
          (wrap_bash_command "echo hi" "queenu1" "/home/queen/userid_u1" 1000 "abc123")
          "queenu1" "/home/queen/userid_u1" 2000 "def456")⟩ ∧
    wrap_bash_command
        (wrap_bash_command "echo hi" "queenu1" "/home/queen/userid_u1" 1000 "abc123")
        "queenu1" "/home/queen/userid_u1" 2000 "def456" ≠
      wrap_bash_command "echo hi" "queenu1" "/home/queen/userid_u1" 1000 "abc123" := by
  constructor
  · rfl
  · decide

set_option maxRecDepth 40000 in
/-- Claim C3, amended.  The Bash permission path wraps every command
unconditionally — an already-wrapped command is wrapped a second time, with
no already-wrapped detection on that path.  The secondary marker check
`_is_allowed_wrapped_command` is never invoked by the permission path; it
does refuse to treat a command carrying the wrapper's marker text for a
different identity as already isolated (the slice check fails), but it also
fails to recognise genuine `_wrap_bash_command` output for the correct
identity and a nonempty working directory, because it demands a
`cd <quoted work_dir>` snippet that the wrapper never emits. -/
theorem bash_wrap_unconditional_and_marker_check_divergence :
    (∀ (cwd baseDir work_dir uid : String) (nowMs : Nat) (rand6 : String)
        (input : ToolInputData) (cmd : String),
      extract_user_id work_dir = some uid → input.command = some cmd → cmd ≠ "" →
      build_tool_permission_handler true false cwd baseDir work_dir nowMs rand6
          "Bash" input =
        .allow { input with command := some (wrap_bash_command cmd (to_linux_user uid) work_dir nowMs rand6) }) ∧
    is_allowed_wrapped_command
        (wrap_bash_command "echo hi" "queenu1" "/home/queen/userid_u1" 1000 "abc123")
        "queenu1" "/home/queen/userid_u1" = false ∧
    is_allowed_wrapped_command
        (wrap_bash_command "echo hi" "queenu1" "/home/queen/userid_u1" 1000 "abc123")
        "queenu2" "/home/queen/userid_u2" = false := by
  refine ⟨?_, by decide, by decide⟩
  intro cwd baseDir work_dir uid nowMs rand6 input cmd hu hcmd hne
  unfold build_tool_permission_handler
  simp [hu, hcmd, truthy, to_linux_user_ne_empty uid, hne]

/-- Witness for the amended C3: a concrete raw command is wrapped by the
handler into the full isolation prefix. -/
theorem bash_wrap_unconditional_witness :
    build_tool_permission_handler true false "/" "/base" "/home/queen/userid_u1"
        1000 "abc123" "Bash" ⟨none, none, none, none, some "echo hi"⟩ =
      .allow ⟨none, none, none, none,
        some (wrap_bash_command "echo hi" "queenu1" "/home/queen/userid_u1"
          1000 "abc123")⟩ := by
  have h := bash_wrap_unconditional_and_marker_check_divergence.1 "/" "/base"
    "/home/queen/userid_u1" "u1" 1000 "abc123"
    ⟨none, none, none, none, some "echo hi"⟩ "echo hi" (by decide) rfl (by decide)
  exact h

set_option maxRecDepth 4000 in
/-- Witness for C2, the spec's concrete scenario: against a workspace rooted
at `/base/userid_X` (with that directory as process cwd), a Read of
`../../etc/passwd` is denied with the explanation message and a Read of
`subdir/file.txt` is allowed. -/
theorem read_tool_path_restriction_witness :
    build_tool_permission_handler true false "/base/userid_X" "/base" "/base/userid_X"
        1000 "abc123" "Read" ⟨none, some "../../etc/passwd", none, none, none⟩ =
      .deny "安全限制：只能访问工作目录 /base/userid_X 内的文件。" ∧
    build_tool_permission_handler true false "/base/userid_X" "/base" "/base/userid_X"
        1000 "abc123" "Read" ⟨none, some "subdir/file.txt", none, none, none⟩ =
      .allow ⟨none, some "subdir/file.txt", none, none, none⟩ := by
  constructor
  · exact (read_tool_path_restriction false "/base/userid_X" "/base" "/base/userid_X"
      "X" 1000 "abc123" "Read" ⟨none, some "../../etc/passwd", none, none, none⟩
      "../../etc/passwd" (by decide) (Or.inl rfl) rfl (by decide)).1 (by decide)
  · exact (read_tool_path_restriction false "/base/userid_X" "/base" "/base/userid_X"
      "X" 1000 "abc123" "Read" ⟨none, some "subdir/file.txt", none, none, none⟩
      "subdir/file.txt" (by decide) (Or.inl rfl) rfl (by decide)).2 (by decide)

theorem natDecAux_stable (f : Nat) : ∀ (f₂ n : Nat), n < f → n < f₂ →
    natDecAux f n = natDecAux f₂ n := by
  induction f with
  | zero => intro f₂ n h _; omega
  | succ f₁ ih =>
    intro f₂ n hf hf₂
    cases f₂ with
    | zero => omega
    | succ f₃ =>
      simp only [natDecAux]
      by_cases h10 : n < 10
      · simp [h10]
      · simp only [h10, if_false]
        have hdiv : n / 10 < n := Nat.div_lt_self (by omega) (by omega)
        rw [ih f₃ (n / 10) (by omega) (by omega)]

theorem natDecChars_unfold (n : Nat) :
    natDecChars n = if n < 10 then [Nat.digitChar n]
      else natDecChars (n / 10) ++ [Nat.digitChar (n % 10)] := by
  by_cases h10 : n < 10
  · simp [natDecChars, natDecAux, h10]
  · have hdiv : n / 10 < n := Nat.div_lt_self (by omega) (by omega)
    simp only [natDecChars, natDecAux, h10, if_false]
    congr 1
    exact natDecAux_stable n (n / 10 + 1) (n / 10) hdiv (Nat.lt_succ_self _)

theorem digitChar_injOn : ∀ a, a < 10 → ∀ b, b < 10 →
    Nat.digitChar a = Nat.digitChar b → a = b := by decide

theorem natDecChars_ne_nil (n : Nat) : natDecChars n ≠ [] := by
  rw [natDecChars_unfold]
  by_cases h10 : n < 10
  · simp [h10]
  · simp [h10]

theorem natDecChars_inj (n : Nat) : ∀ m, natDecChars n = natDecChars m → n = m := by
  induction n using Nat.strong_induction_on with
  | _ n ih =>
    intro m h
    rw [natDecChars_unfold n, natDecChars_unfold m] at h
    by_cases hn : n < 10 <;> by_cases hm : m < 10
    · simp only [hn, hm, if_true] at h
      exact digitChar_injOn n hn m hm (by simpa using h)
    · simp only [hn, hm, if_true, if_false] at h
      have hlen := congrArg List.length h
      simp only [List.length_singleton, List.length_append] at hlen
      have hpos : 0 < (natDecChars (m / 10)).length :=
        List.length_pos.2 (natDecChars_ne_nil (m / 10))
      omega
    · simp only [hn, hm, if_true, if_false] at h
      have hlen := congrArg List.length h
      simp only [List.length_singleton, List.length_append] at hlen
      have hpos : 0 < (natDecChars (n / 10)).length :=
        List.length_pos.2 (natDecChars_ne_nil (n / 10))
      omega
    · simp only [hn, hm, if_false] at h
      obtain ⟨h1, h2⟩ := List.append_inj' h rfl
      have hdiv : n / 10 = m / 10 :=
        ih (n / 10) (Nat.div_lt_self (by omega) (by omega)) (m / 10) h1
      have hmod := digitChar_injOn (n % 10) (Nat.mod_lt _ (by omega)) (m % 10)
        (Nat.mod_lt _ (by omega)) (by simpa using h2)
      omega

theorem natDecChars_safe (n : Nat) : (natDecChars n).all shlexSafeChar = true := by
  induction n using Nat.strong_induction_on with
  | _ n ih =>
    rw [natDecChars_unfold]
    have hdig : ∀ d, d < 10 → shlexSafeChar (Nat.digitChar d) = true := by decide
    by_cases h10 : n < 10
    · simp [h10, hdig n h10]
    · have hdiv : n / 10 < n := Nat.div_lt_self (by omega) (by omega)
      simp [h10, List.all_append, ih (n / 10) hdiv,
        hdig (n % 10) (Nat.mod_lt _ (by omega))]

theorem shlexQuote_of_safe (s : String) (hne : s ≠ "")
    (hsafe : s.data.all shlexSafeChar = true) : shlexQuote s = s := by
  unfold shlexQuote
  rw [if_neg hne, if_pos hsafe]

theorem string_append_ne_empty_left (s t : String) (h : s ≠ "") : s ++ t ≠ "" := by
  intro hc
  apply h
  have hd := congrArg String.data hc
  rw [String.data_append] at hd
  have h0 : ("" : String).data = [] := rfl
  rw [h0] at hd
  obtain ⟨h1, _⟩ := List.append_eq_nil.1 hd
  exact String.ext (by rw [h1, h0])

/-- Uniqueness of the wrapped command in the timestamp and random suffix:
for an identity of safe characters and six-character safe suffixes (exactly
what `_to_linux_user` and `uuid4().hex[:6]` produce), two wraps of the same
command agree only when timestamp and suffix agree. -/
theorem wrap_bash_command_inj (c u d : String) (n n' : Nat) (r r' : String)
    (hu : u.data.all shlexSafeChar = true)
    (hr : r.data.all shlexSafeChar = true) (hr' : r'.data.all shlexSafeChar = true)
    (hlen : r.length = 6) (hlen' : r'.length = 6)
    (h : wrap_bash_command c u d n r = wrap_bash_command c u d n' r') :
    n = n' ∧ r = r' := by
  have hjob : "job-".data.all shlexSafeChar = true := by decide
  have hdash : "-".data.all shlexSafeChar = true := by decide
  have hnsafe : ∀ k : Nat, (natDecimal k).data.all shlexSafeChar = true :=
    fun k => natDecChars_safe k
  have hne_unit : ∀ (k : Nat) (s : String),
      ("job-" ++ u ++ "-" ++ (natDecimal k ++ "-" ++ s)) ≠ "" := by
    intro k s
    exact string_append_ne_empty_left _ _ (string_append_ne_empty_left _ _
      (string_append_ne_empty_left _ _ (by decide)))
  have hsafe_unit : ∀ (k : Nat) (s : String), s.data.all shlexSafeChar = true →
      ("job-" ++ u ++ "-" ++ (natDecimal k ++ "-" ++ s)).data.all shlexSafeChar = true := by
    intro k s hs
    simp [String.data_append, List.all_append, hjob, hdash, hu, hnsafe k, hs]
    all_goals decide
  have hd := congrArg String.data h
  simp only [wrap_bash_command, String.data_append, List.append_assoc] at hd
  replace hd := List.append_cancel_left hd
  replace hd := List.append_cancel_left hd
  replace hd := List.append_cancel_left hd
  replace hd := List.append_cancel_left hd
  replace hd := List.append_cancel_left hd
  replace hd := List.append_cancel_left hd
  replace hd := List.append_cancel_left hd
  replace hd := List.append_cancel_left hd
  replace hd := List.append_cancel_left hd
  replace hd := List.append_cancel_left hd
  replace hd := List.append_cancel_left hd
  have hq : (shlexQuote ("job-" ++ u ++ "-" ++ (natDecimal n ++ "-" ++ r))).data =
      (shlexQuote ("job-" ++ u ++ "-" ++ (natDecimal n' ++ "-" ++ r'))).data :=
    List.append_cancel_right hd
  have hqs := String.ext hq
  rw [shlexQuote_of_safe _ (hne_unit n r) (hsafe_unit n r hr),
    shlexQuote_of_safe _ (hne_unit n' r') (hsafe_unit n' r' hr')] at hqs
  have hud := congrArg String.data hqs
  simp only [String.data_append, List.append_assoc] at hud
  replace hud := List.append_cancel_left hud
  replace hud := List.append_cancel_left hud
  replace hud := List.append_cancel_left hud
  have hrl : r.data.length = 6 := hlen
  have hrl' : r'.data.length = 6 := hlen'
  obtain ⟨h1, h2⟩ := List.append_inj' hud
    (by simp [List.length_append, hrl, hrl'])
  constructor
  · exact natDecChars_inj n n' h1
  · exact String.ext (List.append_cancel_left h2)

/-- Claim C4.  `_wrap_bash_command` is a pure string transform (a Lean
function of its inputs, with the timestamp and random suffix passed in)
whose result is (a) a recursive chown of the working directory to the
identity, followed via `&&` by (b) a systemd-run scope launch that names the
identity's slice, carries a unit name built from the identity, the decimal
timestamp and the random suffix, sets the working directory and the
identity's uid/gid, and ends with the raw command shell-quoted behind
`bash -lc`; the unit name makes the output unique in (timestamp, suffix) for
the identities and suffixes the callers produce (safe characters, suffix
length six). -/
theorem wrap_bash_command_spec (c u d : String) (n : Nat) (r : String) :
    (∃ launch : String,
      wrap_bash_command c u d n r =
        "sudo chown -R " ++ shlexQuote u ++ ":" ++ shlexQuote u ++ " " ++
          shlexQuote d ++ " && " ++ launch ∧
      (∃ tail1 : String, launch =
        "sudo systemd-run --scope --slice=user-" ++ shlexQuote u ++ ".slice " ++
          "--unit=" ++
          shlexQuote ("job-" ++ u ++ "-" ++ (natDecimal n ++ "-" ++ r)) ++ " " ++ tail1) ∧
      (∃ pre2 : String, launch =
        pre2 ++ ("--working-directory=" ++ shlexQuote d ++ " " ++ "--uid=" ++
          shlexQuote u ++ " --gid=" ++ shlexQuote u ++ " --quiet " ++ "bash -lc " ++
          shlexQuote c))) ∧
    (∀ (n' : Nat) (r' : String), u.data.all shlexSafeChar = true →
      r.data.all shlexSafeChar = true → r'.data.all shlexSafeChar = true →
      r.length = 6 → r'.length = 6 →
      wrap_bash_command c u d n r = wrap_bash_command c u d n' r' →
      n = n' ∧ r = r') := by
  constructor
  · refine ⟨"sudo systemd-run --scope --slice=user-" ++ shlexQuote u ++ ".slice " ++
      "--unit=" ++ shlexQuote ("job-" ++ u ++ "-" ++ (natDecimal n ++ "-" ++ r)) ++ " " ++
      "--working-directory=" ++ shlexQuote d ++ " " ++ "--uid=" ++ shlexQuote u ++
      " --gid=" ++ shlexQuote u ++ " --quiet " ++ "bash -lc " ++ shlexQuote c,
      ?_, ?_, ?_⟩
    · apply String.ext
      simp [wrap_bash_command, String.data_append, List.append_assoc]
    · refine ⟨"--working-directory=" ++ shlexQuote d ++ " " ++ "--uid=" ++
        shlexQuote u ++ " --gid=" ++ shlexQuote u ++ " --quiet " ++ "bash -lc " ++
        shlexQuote c, ?_⟩
      apply String.ext
      simp [String.data_append, List.append_assoc]
    · refine ⟨"sudo systemd-run --scope --slice=user-" ++ shlexQuote u ++ ".slice " ++
        "--unit=" ++ shlexQuote ("job-" ++ u ++ "-" ++ (natDecimal n ++ "-" ++ r)) ++
        " ", ?_⟩
      apply String.ext
      simp [String.data_append, List.append_assoc]
  · intro n' r' hu hr hr' hlen hlen' h
    exact wrap_bash_command_inj c u d n n' r r' hu hr hr' hlen hlen' h

/-- Witness for C4: the concrete wrap of `echo hi` decomposes into the chown
prefix, and two wraps differing only in the timestamp are distinct strings. -/
theorem wrap_bash_command_spec_witness :
    (∃ launch : String,
      wrap_bash_command "echo hi" "queenu1" "/home/queen/userid_u1" 1000 "abc123" =
        "sudo chown -R queenu1:queenu1 /home/queen/userid_u1 && " ++ launch) ∧
    wrap_bash_command "echo hi" "queenu1" "/home/queen/userid_u1" 1000 "abc123" ≠
      wrap_bash_command "echo hi" "queenu1" "/home/queen/userid_u1" 1001 "abc123" := by
  constructor
  · obtain ⟨launch, h1, -, -⟩ :=
      (wrap_bash_command_spec "echo hi" "queenu1" "/home/queen/userid_u1" 1000 "abc123").1
    refine ⟨launch, ?_⟩
    rw [h1]
    rfl
  · intro hc
    have h := ((wrap_bash_command_spec "echo hi" "queenu1" "/home/queen/userid_u1"
      1000 "abc123").2 1001 "abc123" (by decide) (by decide) (by decide) (by decide)
      (by decide) hc).1
    omega
